import Mathlib

/-!
Verification of the Animus CLI log-processing engine (`animus_cli/log_processor.py`
and the prompt-assembly budget loop of `animus_cli/llm_manager.py`) against its
natural-language specification.

The Python code is shallowly embedded: dictionaries with optional keys become
structures of `Option`-typed fields, Python's insertion-ordered dicts become
association lists processed in insertion order, `list.sort`/`sorted` (stable,
and therefore uniquely determined by the comparator and the input order)
becomes the stable `List.insertionSort` with the corresponding comparator, and the
one failure mode of the aggregator (sorting a mixed list of offset-aware and
offset-naive datetimes raises `TypeError` in Python) is modelled by returning
`none`.
-/

/-- One raw event dictionary, as loaded from the collector's JSON.
Fields are `Option`-typed: `none` models a missing key, in which case the
code's `event.get(key, default)` lookups supply the documented default. -/
structure RawEvent where
  LogName : Option String
  ProviderName : Option String
  EventID : Option Int
  Level : Option String
  TimeCreated : Option String
  Message : Option String
deriving DecidableEq

/-- Python's `str.lower`, restricted (as in CPython for ASCII data) to
mapping the characters A-Z to a-z. -/
def pyLower (s : String) : String :=
  String.mk (s.data.map Char.toLower)

/-- Python's `str.strip()`: remove leading and trailing whitespace. -/
def pyStrip (s : String) : String :=
  String.mk (((s.data.dropWhile Char.isWhitespace).reverse.dropWhile
    Char.isWhitespace).reverse)

/-- Embedding of `LogProcessor._normalize_level_name`.  Python's
`str(level).lower().strip() if level else "information"` treats `None` and
the empty string as falsy; then an if/elif chain matches the five canonical
names and the numeric codes "1".."5", defaulting to "Information". -/
def normalize_level_name (level : Option String) : String :=
  let level_str :=
    match level with
    | none => "information"
    | some s => if s = "" then "information" else pyStrip (pyLower s)
  if level_str = "critical" then "Critical"
  else if level_str = "error" then "Error"
  else if level_str = "warning" then "Warning"
  else if level_str = "information" then "Information"
  else if level_str = "verbose" then "Verbose"
  else if level_str = "1" then "Critical"
  else if level_str = "2" then "Error"
  else if level_str = "3" then "Warning"
  else if level_str = "4" then "Information"
  else if level_str = "5" then "Verbose"
  else "Information"

/-- The level normalizer exactly as the specification words it: lowercase and
trim, match a canonical name, else the numeric codes, else `Information`;
`nil` and empty input also yield `Information`.  Used only to compare the
specification's description with the code's `normalize_level_name`. -/
def normalize_level_spec (level : Option String) : String :=
  match level with
  | none => "Information"
  | some s =>
    let t := pyStrip (pyLower s)
    if t = "critical" then "Critical"
    else if t = "error" then "Error"
    else if t = "warning" then "Warning"
    else if t = "information" then "Information"
    else if t = "verbose" then "Verbose"
    else if t = "1" then "Critical"
    else if t = "2" then "Error"
    else if t = "3" then "Warning"
    else if t = "4" then "Information"
    else if t = "5" then "Verbose"
    else "Information"

/-- C4: the level normalizer is total, agrees pointwise with the
specification's description (canonical names after lowercasing and trimming,
numeric codes "1".."5", everything else — including nil and empty — mapping
to `Information`), and always returns one of the five canonical names. -/
theorem c4_normalize_level_total_spec (level : Option String) :
    normalize_level_name level = normalize_level_spec level ∧
    (normalize_level_name level = "Critical" ∨
     normalize_level_name level = "Error" ∨
     normalize_level_name level = "Warning" ∨
     normalize_level_name level = "Information" ∨
     normalize_level_name level = "Verbose") := by
  have key : ∀ t : String,
      (if t = "critical" then "Critical"
       else if t = "error" then "Error"
       else if t = "warning" then "Warning"
       else if t = "information" then "Information"
       else if t = "verbose" then "Verbose"
       else if t = "1" then "Critical"
       else if t = "2" then "Error"
       else if t = "3" then "Warning"
       else if t = "4" then "Information"
       else if t = "5" then "Verbose"
       else "Information") = "Critical" ∨
      (if t = "critical" then "Critical"
       else if t = "error" then "Error"
       else if t = "warning" then "Warning"
       else if t = "information" then "Information"
       else if t = "verbose" then "Verbose"
       else if t = "1" then "Critical"
       else if t = "2" then "Error"
       else if t = "3" then "Warning"
       else if t = "4" then "Information"
       else if t = "5" then "Verbose"
       else "Information") = "Error" ∨
      (if t = "critical" then "Critical"
       else if t = "error" then "Error"
       else if t = "warning" then "Warning"
       else if t = "information" then "Information"
       else if t = "verbose" then "Verbose"
       else if t = "1" then "Critical"
       else if t = "2" then "Error"
       else if t = "3" then "Warning"
       else if t = "4" then "Information"
       else if t = "5" then "Verbose"
       else "Information") = "Warning" ∨
      (if t = "critical" then "Critical"
       else if t = "error" then "Error"
       else if t = "warning" then "Warning"
       else if t = "information" then "Information"
       else if t = "verbose" then "Verbose"
       else if t = "1" then "Critical"
       else if t = "2" then "Error"
       else if t = "3" then "Warning"
       else if t = "4" then "Information"
       else if t = "5" then "Verbose"
       else "Information") = "Information" ∨
      (if t = "critical" then "Critical"
       else if t = "error" then "Error"
       else if t = "warning" then "Warning"
       else if t = "information" then "Information"
       else if t = "verbose" then "Verbose"
       else if t = "1" then "Critical"
       else if t = "2" then "Error"
       else if t = "3" then "Warning"
       else if t = "4" then "Information"
       else if t = "5" then "Verbose"
       else "Information") = "Verbose" := by
    intro t
    split_ifs <;> simp
  constructor
  · cases level with
    | none => decide
    | some s =>
      by_cases hs : s = ""
      · subst hs; decide
      · simp only [normalize_level_name, normalize_level_spec, if_neg hs]
  · cases level with
    | none => decide
    | some s =>
      by_cases hs : s = ""
      · subst hs; decide
      · simpa only [normalize_level_name, if_neg hs] using key (pyStrip (pyLower s))

/-- Python's `str.replace(pat, rep)` (all non-overlapping occurrences, left
to right), written with a fuel argument so that it reduces structurally;
the fuel is instantiated with the length of the subject string, which always
suffices for the non-empty patterns the code uses. -/
def pyReplaceAux (pat rep : List Char) : Nat → List Char → List Char
  | _, [] => []
  | 0, l => l
  | fuel + 1, c :: cs =>
    if pat.isPrefixOf (c :: cs) then
      rep ++ pyReplaceAux pat rep fuel ((c :: cs).drop pat.length)
    else
      c :: pyReplaceAux pat rep fuel cs

/-- Python's `str.replace` on strings. -/
def pyReplace (s pat rep : String) : String :=
  String.mk (pyReplaceAux pat.data rep.data s.data.length s.data)

/-- The timestamp preprocessing of `LogProcessor._aggregate_events`
(log_processor.py lines 124-130): replace every "Z" with "+00:00"; if a dot
is present, split at the first dot, keep the fraction up to the first "+",
pad or truncate it to exactly six characters, and reassemble with a forced
"+00:00" offset. -/
def pyPreprocessTs (s : String) : String :=
  let s1 := pyReplace s "Z" "+00:00"
  if s1.data.any (fun c => c = '.') then
    let base := s1.data.takeWhile (fun c => c ≠ '.')
    let frac := (s1.data.dropWhile (fun c => c ≠ '.')).drop 1
    let frac2 := frac.takeWhile (fun c => c ≠ '+')
    let frac3 := (frac2 ++ ("000000".data)).take 6
    String.mk (base ++ '.' :: (frac3 ++ ("+00:00".data)))
  else s1

/-- A Python `datetime.datetime` value: calendar fields plus an optional
UTC offset in minutes (`none` models an offset-naive datetime). -/
structure PyDateTime where
  year : Nat
  month : Nat
  day : Nat
  hour : Nat
  minute : Nat
  second : Nat
  microsecond : Nat
  tz : Option Int
deriving DecidableEq

/-- Decimal value of a digit character, `none` for non-digits. -/
def digit? (c : Char) : Option Nat :=
  if c.isDigit then some (c.toNat - 48) else none

/-- Parse exactly two leading digits. -/
def parse2 : List Char → Option (Nat × List Char)
  | a :: b :: rest => do
    let x ← digit? a
    let y ← digit? b
    pure (x * 10 + y, rest)
  | _ => none

/-- Decimal value of a digit list (assumed all digits). -/
def digitsToNat (l : List Char) : Nat :=
  l.foldl (fun acc c => acc * 10 + (c.toNat - 48)) 0

/-- Fractional seconds in microseconds: CPython (pre-3.11) accepts exactly
three or six fractional digits. -/
def parseFracMicro (l : List Char) : Option Nat :=
  if l.all Char.isDigit then
    if l.length = 3 then some (digitsToNat l * 1000)
    else if l.length = 6 then some (digitsToNat l)
    else none
  else none

/-- CPython's `_parse_hh_mm_ss_ff`: `HH`, optionally `:MM`, optionally
`:SS`, optionally a fractional part, with nothing left over. -/
def parseHMSF (l : List Char) : Option (Nat × Nat × Nat × Nat) := do
  let (hh, r) ← parse2 l
  match r with
  | [] => some (hh, 0, 0, 0)
  | ':' :: r2 => do
    let (mm, r3) ← parse2 r2
    match r3 with
    | [] => some (hh, mm, 0, 0)
    | ':' :: r4 => do
      let (ss, r5) ← parse2 r4
      match r5 with
      | [] => some (hh, mm, ss, 0)
      | '.' :: r6 => do
        let micro ← parseFracMicro r6
        some (hh, mm, ss, micro)
      | _ => none
    | _ => none
  | _ => none

/-- Timezone tail `HH:MM` after the sign, as minutes; a `timezone` object
requires the offset to be strictly smaller than 24 hours. -/
def parseTzHM (l : List Char) : Option Nat := do
  let (hh, r) ← parse2 l
  match r with
  | ':' :: r2 => do
    let (mm, r3) ← parse2 r2
    match r3 with
    | [] => if hh * 60 + mm < 1440 then some (hh * 60 + mm) else none
    | _ => none
  | _ => none

/-- Signed timezone offset in minutes, starting at the sign character. -/
def parseTzMinutes : List Char → Option Int
  | '+' :: r => (parseTzHM r).map (fun m => (m : Int))
  | '-' :: r => (parseTzHM r).map (fun m => -(m : Int))
  | _ => none

/-- CPython splits the time string at the first "-" if any, else at the
first "+", keeping the sign with the timezone part. -/
def splitTz (l : List Char) : List Char × List Char :=
  if l.any (fun c => c = '-') then
    (l.takeWhile (fun c => c ≠ '-'), l.dropWhile (fun c => c ≠ '-'))
  else if l.any (fun c => c = '+') then
    (l.takeWhile (fun c => c ≠ '+'), l.dropWhile (fun c => c ≠ '+'))
  else (l, [])

/-- Leap years of the proleptic Gregorian calendar. -/
def isLeapYear (y : Nat) : Bool :=
  y % 4 = 0 && (y % 100 ≠ 0 || y % 400 = 0)

/-- Length of a month. -/
def daysInMonth (y m : Nat) : Nat :=
  if m = 2 then (if isLeapYear y then 29 else 28)
  else if m = 4 ∨ m = 6 ∨ m = 9 ∨ m = 11 then 30
  else 31

/-- Model of `datetime.fromisoformat` as found in CPython before 3.11 (the
code comments target that behaviour): a strict `YYYY-MM-DD` date, optionally
followed by one arbitrary separator character and a time `HH[:MM[:SS[.fff
or .ffffff]]]`, optionally followed by a `+HH:MM`/`-HH:MM` offset.  All
calendar and clock fields are range-checked as the `datetime` constructor
does. -/
def pyFromisoformat (s : String) : Option PyDateTime :=
  match s.data with
  | y1 :: y2 :: y3 :: y4 :: s1 :: m1 :: m2 :: s2 :: d1 :: d2 :: rest => do
    let a ← digit? y1
    let b ← digit? y2
    let c ← digit? y3
    let d ← digit? y4
    let e ← digit? m1
    let f ← digit? m2
    let g ← digit? d1
    let h ← digit? d2
    if s1 = '-' ∧ s2 = '-' then
      let year := ((a * 10 + b) * 10 + c) * 10 + d
      let month := e * 10 + f
      let day := g * 10 + h
      if 1 ≤ year ∧ 1 ≤ month ∧ month ≤ 12 ∧ 1 ≤ day ∧ day ≤ daysInMonth year month then
        match rest with
        | [] => some ⟨year, month, day, 0, 0, 0, 0, none⟩
        | _tsep :: trest => do
          let (timestr, tzstr) := splitTz trest
          let (hh, mm, ss, micro) ← parseHMSF timestr
          let tz ← match tzstr with
                   | [] => some (Option.none (α := Int))
                   | tzchars => (parseTzMinutes tzchars).map some
          if hh ≤ 23 ∧ mm ≤ 59 ∧ ss ≤ 59 then
            some ⟨year, month, day, hh, mm, ss, micro, tz⟩
          else none
      else none
    else none
  | _ => none

/-- The full per-event timestamp treatment of `_aggregate_events`: the
preprocessing of lines 124-130 followed by `datetime.fromisoformat`;
`none` models the caught `ValueError` (the event is skipped). -/
def parse_timestamp (s : String) : Option PyDateTime :=
  pyFromisoformat (pyPreprocessTs s)

/-- Days from 1970-01-01 of a civil date (Hinnant's algorithm); all inputs
here have `year ≥ 1`, so the integer divisions are exact in any convention. -/
def daysFromCivil (y m d : Nat) : Int :=
  let yAdj : Int := if m ≤ 2 then (y : Int) - 1 else (y : Int)
  let era : Int := yAdj / 400
  let yoe : Int := yAdj - era * 400
  let mp : Int := ((m : Int) + 9) % 12
  let doy : Int := (153 * mp + 2) / 5 + (d : Int) - 1
  let doe : Int := yoe * 365 + yoe / 4 - yoe / 100 + doy
  era * 146097 + doe - 719468

/-- Microseconds since the epoch, after subtracting the UTC offset: two
Python datetimes of equal awareness compare exactly as these keys do
(aware datetimes compare as UTC instants, naive ones field by field). -/
def dtKey (dt : PyDateTime) : Int :=
  ((((daysFromCivil dt.year dt.month dt.day) * 24 + dt.hour) * 60 + dt.minute
      - dt.tz.getD 0) * 60 + dt.second) * 1000000 + dt.microsecond

/-- Python raises `TypeError` when a list mixing offset-naive and
offset-aware datetimes is sorted; a list is sortable iff all elements have
the same awareness. -/
def dtSameAwareness : List PyDateTime → Bool
  | [] => true
  | x :: xs => xs.all (fun y => y.tz.isSome = x.tz.isSome)

/-- Python's `list.sort()` on a list of datetimes: stable ascending sort
when all elements are comparable, `none` (TypeError) otherwise. -/
def pySortDatetimes (l : List PyDateTime) : Option (List PyDateTime) :=
  if dtSameAwareness l then
    some (l.insertionSort (fun a b => dtKey a ≤ dtKey b))
  else none

/-- Fixed-width decimal rendering with leading zeros. -/
def padNum (width n : Nat) : String :=
  let s := toString n
  String.mk (List.replicate (width - s.data.length) '0' ++ s.data)

/-- Python's `datetime.isoformat()`: `YYYY-MM-DDTHH:MM:SS`, a six-digit
fraction only when the microsecond field is non-zero, and `+HH:MM`/`-HH:MM`
for aware datetimes. -/
def pyIsoformat (dt : PyDateTime) : String :=
  padNum 4 dt.year ++ "-" ++ padNum 2 dt.month ++ "-" ++ padNum 2 dt.day ++ "T" ++
    padNum 2 dt.hour ++ ":" ++ padNum 2 dt.minute ++ ":" ++ padNum 2 dt.second ++
    (if dt.microsecond ≠ 0 then "." ++ padNum 6 dt.microsecond else "") ++
    (match dt.tz with
     | none => ""
     | some o =>
       (if o < 0 then "-" else "+") ++ padNum 2 (o.natAbs / 60) ++ ":" ++
         padNum 2 (o.natAbs % 60))

/-- The grouping key of `_aggregate_events`:
`f"{log_name}|{provider}|{event_id}|{level}"` with the `get` defaults
"Unknown", "Unknown", 0, "Information". -/
def groupKey (e : RawEvent) : String :=
  (e.LogName.getD "Unknown") ++ "|" ++ (e.ProviderName.getD "Unknown") ++ "|" ++
    toString (e.EventID.getD 0) ++ "|" ++
    normalize_level_name (some (e.Level.getD "Information"))

/-- Appending one event to an insertion-ordered `defaultdict(list)`:
an existing key grows its list in place, a new key is appended at the end. -/
def insertGroup : List (String × List RawEvent) → String → RawEvent →
    List (String × List RawEvent)
  | [], key, e => [(key, [e])]
  | (k, es) :: rest, key, e =>
    if k = key then (k, es ++ [e]) :: rest
    else (k, es) :: insertGroup rest key e

/-- The grouping loop of `_aggregate_events` (lines 95-106). -/
def groupEvents (events : List RawEvent) : List (String × List RawEvent) :=
  events.foldl (fun gs e => insertGroup gs (groupKey e) e) []

/-- One aggregated event dictionary (lines 142-156). -/
structure AggEvent where
  LogName : Option String
  Level : String
  EventID : Option Int
  ProviderName : Option String
  Message : String
  OccurrenceCount : Nat
  FirstTimestamp : Option String
  LastTimestamp : Option String
  ExampleTimestamps : List String
deriving DecidableEq

/-- The timestamps of a group that parse (lines 116-137): events with a
missing `TimeCreated` or an unparsable value are skipped. -/
def parsedTimestamps (ges : List RawEvent) : List PyDateTime :=
  ges.filterMap (fun e => e.TimeCreated.bind (fun ts => parse_timestamp ts))

/-- Building one aggregated record from a group (lines 113-156): sort the
parsed timestamps ascending (`none` when Python's sort would raise), then
take the representative fields from the first event of the group. -/
def mkGroup (template : RawEvent) (ges : List RawEvent) : Option AggEvent :=
  (pySortDatetimes (parsedTimestamps ges)).map (fun sorted =>
    { LogName := template.LogName
      Level := normalize_level_name template.Level
      EventID := template.EventID
      ProviderName := template.ProviderName
      Message := template.Message.getD "No message"
      OccurrenceCount := ges.length
      FirstTimestamp := sorted.head?.map pyIsoformat
      LastTimestamp := sorted.getLast?.map pyIsoformat
      ExampleTimestamps := (sorted.drop (sorted.length - 3)).map pyIsoformat })

/-- The per-group loop of `_aggregate_events` (lines 109-157), including the
`if not group_events: continue` guard. -/
def buildGroups : List (String × List RawEvent) → Option (List AggEvent)
  | [] => some []
  | (_, []) :: rest => buildGroups rest
  | (_, e :: es) :: rest => do
    let g ← mkGroup e (e :: es)
    let gs ← buildGroups rest
    pure (g :: gs)

/-- Lexicographic code-point comparison, Python's `<` on strings. -/
def strLtB : List Char → List Char → Bool
  | [], [] => false
  | [], _ :: _ => true
  | _ :: _, [] => false
  | a :: as, b :: bs =>
    if a.toNat < b.toNat then true
    else if b.toNat < a.toNat then false
    else strLtB as bs

/-- The sort key of line 160: `(-e["OccurrenceCount"], e["LastTimestamp"] or "")`. -/
def aggSortKey (g : AggEvent) : Int × String :=
  (-(g.OccurrenceCount : Int), g.LastTimestamp.getD "")

/-- Python's `<` on the key tuples. -/
def aggKeyLtB (x y : Int × String) : Bool :=
  if x.1 < y.1 then true
  else if y.1 < x.1 then false
  else strLtB x.2.data y.2.data

/-- The final sort of line 160: Python's stable `sort` with `reverse=True`
places `a` before `b` exactly when the key of `a` is not smaller than the
key of `b`. -/
def sortAggEvents (l : List AggEvent) : List AggEvent :=
  l.insertionSort (fun a b => aggKeyLtB (aggSortKey a) (aggSortKey b) = false)

/-- Embedding of `LogProcessor._aggregate_events`; `none` models the
uncaught `TypeError` of sorting mixed-awareness datetimes. -/
def aggregate_events (events : List RawEvent) : Option (List AggEvent) :=
  (buildGroups (groupEvents events)).map sortAggEvents

/-- A recurring error event (first occurrence). -/
def evErr1 : RawEvent :=
  ⟨some "System", some "SrcA", some 100, some "Error",
    some "2024-05-05T10:00:00Z", some "boom"⟩

/-- The same error event, one hour later. -/
def evErr2 : RawEvent :=
  ⟨some "System", some "SrcA", some 100, some "Error",
    some "2024-05-05T11:00:00Z", some "boom again"⟩

/-- A single warning event with no timestamp. -/
def evWarn : RawEvent :=
  ⟨some "System", some "SrcB", some 7, some "warning", none, some "warn"⟩

/-- C2: on a batch with one group of two occurrences and one group of a
single occurrence, the aggregator returns the single-occurrence group
first: `reverse=True` applied to the already negated count key sorts the
groups by occurrence count ascending, contradicting both the claim and the
code's own comment "Sort aggregated events: Most frequent first" and the
rendered header "(Sorted by Frequency)". -/
theorem c2_sort_least_frequent_first :
    (aggregate_events [evErr1, evErr2, evWarn]).map
      (fun l => l.map AggEvent.OccurrenceCount) = some [1, 2] := by
  decide

/-- Total number of events held in a grouping structure. -/
def sumGroupLen (gs : List (String × List RawEvent)) : Nat :=
  (gs.map (fun g => g.2.length)).sum

theorem sumGroupLen_insertGroup (gs : List (String × List RawEvent))
    (k : String) (e : RawEvent) :
    sumGroupLen (insertGroup gs k e) = sumGroupLen gs + 1 := by
  induction gs with
  | nil => simp [insertGroup, sumGroupLen]
  | cons hd tl ih =>
    obtain ⟨k0, es0⟩ := hd
    by_cases hk : k0 = k
    · simp [insertGroup, hk, sumGroupLen]
      omega
    · simp only [insertGroup, if_neg hk, sumGroupLen, List.map_cons, List.sum_cons] at *
      omega

theorem sumGroupLen_groupEvents (events : List RawEvent) :
    sumGroupLen (groupEvents events) = events.length := by
  have main : ∀ (es : List RawEvent) (acc : List (String × List RawEvent)),
      sumGroupLen (es.foldl (fun gs e => insertGroup gs (groupKey e) e) acc) =
        sumGroupLen acc + es.length := by
    intro es
    induction es with
    | nil => intro acc; simp
    | cons e tl ih =>
      intro acc
      simp only [List.foldl_cons, List.length_cons]
      rw [ih, sumGroupLen_insertGroup]
      omega
  simpa [groupEvents, sumGroupLen] using main events []

theorem mkGroup_occurrenceCount (t : RawEvent) (ges : List RawEvent)
    (g : AggEvent) (h : mkGroup t ges = some g) :
    g.OccurrenceCount = ges.length := by
  unfold mkGroup at h
  cases hs : pySortDatetimes (parsedTimestamps ges) with
  | none => rw [hs] at h; simp at h
  | some sorted =>
    rw [hs] at h
    simp only [Option.map_some'] at h
    cases h
    rfl

theorem buildGroups_sum (gl : List (String × List RawEvent))
    (aggs : List AggEvent) (h : buildGroups gl = some aggs) :
    (aggs.map AggEvent.OccurrenceCount).sum = sumGroupLen gl := by
  induction gl generalizing aggs with
  | nil =>
    simp only [buildGroups] at h
    cases h
    simp [sumGroupLen]
  | cons hd tl ih =>
    obtain ⟨k0, es0⟩ := hd
    cases es0 with
    | nil =>
      simp only [buildGroups] at h
      have := ih aggs h
      simpa [sumGroupLen] using this
    | cons e es =>
      simp only [buildGroups, Option.bind_eq_bind, Option.bind_eq_some] at h
      obtain ⟨g, hg, rest, hrest, haggs⟩ := h
      cases haggs
      have hcount := mkGroup_occurrenceCount e (e :: es) g hg
      have := ih rest hrest
      simp only [List.map_cons, List.sum_cons, sumGroupLen, this, hcount]

theorem sortAggEvents_sum_counts (l : List AggEvent) :
    ((sortAggEvents l).map AggEvent.OccurrenceCount).sum =
      (l.map AggEvent.OccurrenceCount).sum := by
  exact List.Perm.sum_eq (List.Perm.map _ (List.perm_insertionSort _ l))

/-- C3: whenever the aggregator returns (it raises no error on any batch in
which no group mixes offset-aware and offset-naive parsed timestamps), the
occurrence counts of the returned groups sum to the number of events of the
input batch: every event lands in exactly one group. -/
theorem c3_occurrence_counts_partition (events : List RawEvent)
    (gs : List AggEvent) (h : aggregate_events events = some gs) :
    (gs.map AggEvent.OccurrenceCount).sum = events.length := by
  unfold aggregate_events at h
  cases hb : buildGroups (groupEvents events) with
  | none => rw [hb] at h; simp at h
  | some gs0 =>
    rw [hb] at h
    simp only [Option.map_some'] at h
    cases h
    rw [sortAggEvents_sum_counts, buildGroups_sum (groupEvents events) gs0 hb,
      sumGroupLen_groupEvents]

/-- Witness for C3 at a concrete three-event batch. -/
theorem c3_occurrence_counts_partition_witness :
    ((((aggregate_events [evErr1, evErr2, evWarn]).getD []).map
      AggEvent.OccurrenceCount).sum) = 3 :=
  c3_occurrence_counts_partition [evErr1, evErr2, evWarn]
    ((aggregate_events [evErr1, evErr2, evWarn]).getD []) (by decide)

/-- First-match lookup in an insertion-ordered association list, as Python
dictionary indexing (keys are unique by construction). -/
def lookupKey {α : Type} : List (String × α) → String → Option α
  | [], _ => none
  | (k0, v) :: rest, k => if k0 = k then some v else lookupKey rest k

theorem lookupKey_insertGroup (gs : List (String × List RawEvent))
    (key k : String) (e : RawEvent) :
    lookupKey (insertGroup gs key e) k =
      if key = k then some ((lookupKey gs k).getD [] ++ [e])
      else lookupKey gs k := by
  induction gs with
  | nil =>
    by_cases hkk : key = k <;> simp [insertGroup, lookupKey, hkk]
  | cons hd tl ih =>
    obtain ⟨k0, v⟩ := hd
    by_cases h0 : k0 = key
    · subst h0
      by_cases hkk : k0 = k
      · subst hkk; simp [insertGroup, lookupKey]
      · simp [insertGroup, lookupKey, hkk]
    · by_cases hkk : k0 = k
      · subst hkk
        have hne : ¬ key = k0 := fun hc => h0 hc.symm
        simp [insertGroup, lookupKey, h0, hne]
      · simp [insertGroup, lookupKey, h0, hkk, ih]

/-- Merge of an already accumulated group list with newly filtered events. -/
def combineGroup (o : Option (List RawEvent)) (l : List RawEvent) :
    Option (List RawEvent) :=
  match o, l with
  | none, [] => none
  | none, l => some l
  | some v, l => some (v ++ l)

theorem lookupKey_foldl_insertGroup (events : List RawEvent)
    (acc : List (String × List RawEvent)) (k : String) :
    lookupKey (events.foldl (fun gs e => insertGroup gs (groupKey e) e) acc) k =
      combineGroup (lookupKey acc k)
        (events.filter (fun e => decide (groupKey e = k))) := by
  induction events generalizing acc with
  | nil =>
    cases h : lookupKey acc k <;> simp [combineGroup, h]
  | cons e tl ih =>
    simp only [List.foldl_cons]
    rw [ih]
    by_cases hk : groupKey e = k
    · rw [lookupKey_insertGroup, if_pos hk]
      cases h : lookupKey acc k <;>
        simp [combineGroup, h, List.filter_cons, hk]
    · rw [lookupKey_insertGroup, if_neg hk]
      simp [List.filter_cons, hk]

theorem lookupKey_groupEvents (events : List RawEvent) (k : String) :
    lookupKey (groupEvents events) k =
      combineGroup none (events.filter (fun e => decide (groupKey e = k))) := by
  have := lookupKey_foldl_insertGroup events [] k
  simpa [groupEvents, lookupKey] using this

/-- C8: grouping is insensitive to the order of the input batch: a permuted
batch yields, for every grouping key, a group of the same size (and in
particular the same set of keys, a key being present exactly when the lookup
is not `none`); those group sizes are precisely the `OccurrenceCount`
values the aggregator reports. -/
theorem c8_grouping_permutation_invariant (events1 events2 : List RawEvent)
    (hp : events1.Perm events2) (k : String) :
    (lookupKey (groupEvents events1) k).map List.length =
      (lookupKey (groupEvents events2) k).map List.length := by
  rw [lookupKey_groupEvents, lookupKey_groupEvents]
  have hf : (events1.filter (fun e => decide (groupKey e = k))).Perm
      (events2.filter (fun e => decide (groupKey e = k))) :=
    hp.filter _
  have hlen := hf.length_eq
  cases h1 : events1.filter (fun e => decide (groupKey e = k)) with
  | nil =>
    have h2 : events2.filter (fun e => decide (groupKey e = k)) = [] := by
      rw [h1] at hf
      exact hf.symm.eq_nil
    rw [h2]
  | cons x xs =>
    cases h2 : events2.filter (fun e => decide (groupKey e = k)) with
    | nil =>
      rw [h1, h2] at hf
      exact absurd hf.eq_nil (by simp)
    | cons y ys =>
      rw [h1, h2] at hlen
      simp only [combineGroup, Option.map_some']
      simpa using hlen

/-- Witness for C8: swapping a concrete two-event batch leaves the group
size at the key of the first event unchanged. -/
theorem c8_grouping_permutation_invariant_witness :
    (lookupKey (groupEvents [evErr1, evWarn]) (groupKey evErr1)).map List.length =
      (lookupKey (groupEvents [evWarn, evErr1]) (groupKey evErr1)).map List.length :=
  c8_grouping_permutation_invariant [evErr1, evWarn] [evWarn, evErr1]
    (by decide) (groupKey evErr1)

theorem sorted_head?_getLast? {le : PyDateTime → PyDateTime → Prop}
    (hrefl : ∀ a, le a a) :
    ∀ (l : List PyDateTime), List.Sorted le l → ∀ a b,
      l.head? = some a → l.getLast? = some b → le a b := by
  intro l hs a b ha hb
  cases l with
  | nil => simp at ha
  | cons x t =>
    have hax : a = x := by
      simp only [List.head?_cons, Option.some.injEq] at ha
      exact ha.symm
    subst hax
    have hbmem : b ∈ a :: t := by
      have hgl : (a :: t).getLast (by simp) = b := by
        have hq := List.getLast?_eq_getLast (a :: t) (by simp)
        rw [hq] at hb
        exact Option.some.inj hb
      rw [← hgl]
      exact List.getLast_mem _
    rcases List.mem_cons.mp hbmem with hbx | hbt
    · rw [hbx]; exact hrefl a
    · exact List.rel_of_sorted_cons hs b hbt

theorem buildGroups_mem (gl : List (String × List RawEvent))
    (aggs : List AggEvent) (h : buildGroups gl = some aggs)
    (g : AggEvent) (hg : g ∈ aggs) :
    ∃ e es, mkGroup e (e :: es) = some g := by
  induction gl generalizing aggs with
  | nil =>
    simp only [buildGroups] at h
    cases h
    simp at hg
  | cons hd tl ih =>
    obtain ⟨k0, es0⟩ := hd
    cases es0 with
    | nil =>
      simp only [buildGroups] at h
      exact ih aggs h hg
    | cons e es =>
      simp only [buildGroups, Option.bind_eq_bind, Option.bind_eq_some] at h
      obtain ⟨g0, hg0, rest, hrest, haggs⟩ := h
      cases haggs
      rcases List.mem_cons.mp hg with hgg | hgr
      · exact ⟨e, es, by rw [← hgg] at hg0; exact hg0⟩
      · exact ih rest hrest hgr

theorem mkGroup_timestamp_invariant (t : RawEvent) (ges : List RawEvent)
    (g : AggEvent) (h : mkGroup t ges = some g) :
    ((g.FirstTimestamp = none ∧ g.LastTimestamp = none) ↔
      parsedTimestamps ges = []) ∧
    (parsedTimestamps ges ≠ [] →
      ∃ df dl, g.FirstTimestamp = some (pyIsoformat df) ∧
        g.LastTimestamp = some (pyIsoformat dl) ∧ dtKey df ≤ dtKey dl) := by
  unfold mkGroup at h
  cases hs : pySortDatetimes (parsedTimestamps ges) with
  | none => rw [hs] at h; simp at h
  | some sorted =>
    rw [hs] at h
    simp only [Option.map_some'] at h
    cases h
    unfold pySortDatetimes at hs
    by_cases haw : dtSameAwareness (parsedTimestamps ges) = true
    · rw [if_pos haw] at hs
      have hsorted : sorted =
          (parsedTimestamps ges).insertionSort (fun a b => dtKey a ≤ dtKey b) :=
        (Option.some.inj hs).symm
      have hperm : sorted.Perm (parsedTimestamps ges) := by
        rw [hsorted]
        exact List.perm_insertionSort _ _
      have hnil : sorted = [] ↔ parsedTimestamps ges = [] := by
        constructor
        · intro hx; rw [hx] at hperm; exact (hperm.symm).eq_nil
        · intro hx; rw [hx] at hperm; exact hperm.eq_nil
      constructor
      · simp only [Option.map_eq_none', List.head?_eq_none_iff,
          List.getLast?_eq_none_iff]
        constructor
        · intro hx; exact hnil.mp hx.1
        · intro hx; exact ⟨hnil.mpr hx, hnil.mpr hx⟩
      · intro hne
        have hsne : sorted ≠ [] := fun hx => hne (hnil.mp hx)
        have hhead : sorted.head?.isSome = true := List.head?_isSome.mpr hsne
        have hlast : sorted.getLast?.isSome = true := List.getLast?_isSome.mpr hsne
        obtain ⟨a, ha⟩ := Option.isSome_iff_exists.mp hhead
        obtain ⟨b, hb⟩ := Option.isSome_iff_exists.mp hlast
        refine ⟨a, b, by simp [ha], by simp [hb], ?_⟩
        haveI : IsTotal PyDateTime (fun a b => dtKey a ≤ dtKey b) :=
          ⟨fun x y => show dtKey x ≤ dtKey y ∨ dtKey y ≤ dtKey x from
            Int.le_total _ _⟩
        haveI : IsTrans PyDateTime (fun a b => dtKey a ≤ dtKey b) :=
          ⟨fun x y z hxy hyz => show dtKey x ≤ dtKey z from
            Int.le_trans hxy hyz⟩
        have hsrt : List.Sorted (fun a b => dtKey a ≤ dtKey b) sorted := by
          rw [hsorted]
          exact List.sorted_insertionSort _ _
        exact sorted_head?_getLast?
          (fun x => show dtKey x ≤ dtKey x from Int.le_refl _)
          sorted hsrt a b ha hb
    · rw [if_neg haw] at hs
      simp at hs

/-- C7: every group the aggregator returns satisfies the time-span
invariant: its first and last timestamps are both null exactly when none of
the group's timestamps parsed, and when at least one parsed, the rendered
first timestamp is chronologically at most the rendered last timestamp. -/
theorem c7_first_le_last_timestamp (events : List RawEvent)
    (gs : List AggEvent) (g : AggEvent)
    (h : aggregate_events events = some gs) (hg : g ∈ gs) :
    ∃ e es, mkGroup e (e :: es) = some g ∧
      ((g.FirstTimestamp = none ∧ g.LastTimestamp = none) ↔
        parsedTimestamps (e :: es) = []) ∧
      (parsedTimestamps (e :: es) ≠ [] →
        ∃ df dl, g.FirstTimestamp = some (pyIsoformat df) ∧
          g.LastTimestamp = some (pyIsoformat dl) ∧ dtKey df ≤ dtKey dl) := by
  unfold aggregate_events at h
  cases hb : buildGroups (groupEvents events) with
  | none => rw [hb] at h; simp at h
  | some gs0 =>
    rw [hb] at h
    simp only [Option.map_some'] at h
    cases h
    have hmem : g ∈ gs0 := by
      have hperm : (sortAggEvents gs0).Perm gs0 := List.perm_insertionSort _ _
      exact hperm.mem_iff.mp hg
    obtain ⟨e, es, hmk⟩ := buildGroups_mem (groupEvents events) gs0 hb g hmem
    have hinv := mkGroup_timestamp_invariant e (e :: es) g hmk
    exact ⟨e, es, hmk, hinv.1, hinv.2⟩

/-- The aggregate record of the two-event batch `[evErr1, evErr2]`. -/
def gC7 : AggEvent :=
  { LogName := some "System"
    Level := "Error"
    EventID := some 100
    ProviderName := some "SrcA"
    Message := "boom"
    OccurrenceCount := 2
    FirstTimestamp := some "2024-05-05T10:00:00+00:00"
    LastTimestamp := some "2024-05-05T11:00:00+00:00"
    ExampleTimestamps := ["2024-05-05T10:00:00+00:00", "2024-05-05T11:00:00+00:00"] }

/-- Witness for C7 at the concrete batch `[evErr1, evErr2]`. -/
theorem c7_first_le_last_timestamp_witness :
    ∃ e es, mkGroup e (e :: es) = some gC7 ∧
      ((gC7.FirstTimestamp = none ∧ gC7.LastTimestamp = none) ↔
        parsedTimestamps (e :: es) = []) ∧
      (parsedTimestamps (e :: es) ≠ [] →
        ∃ df dl, gC7.FirstTimestamp = some (pyIsoformat df) ∧
          gC7.LastTimestamp = some (pyIsoformat dl) ∧ dtKey df ≤ dtKey dl) :=
  c7_first_le_last_timestamp [evErr1, evErr2] [gC7] gC7 (by decide) (by decide)

/-- The `log_name` a summarized event contributes, `event.get("LogName", "Unknown")`. -/
def logNameOf (e : RawEvent) : String := e.LogName.getD "Unknown"

/-- The normalized level a summarized event contributes,
`_normalize_level_name(event.get("Level", "Information"))`. -/
def levelNameOf (e : RawEvent) : String :=
  normalize_level_name (some (e.Level.getD "Information"))

/-- The provider a summarized event contributes, `event.get("ProviderName", "Unknown")`. -/
def providerOf (e : RawEvent) : String := e.ProviderName.getD "Unknown"

/-- The event id a summarized event contributes, `event.get("EventID", 0)`. -/
def eventIdOf (e : RawEvent) : Int := e.EventID.getD 0

/-- Incrementing a key of an insertion-ordered `defaultdict(int)`: an
existing key is bumped in place, a new key starts at 1 at the end. -/
def bump : List (String × Nat) → String → List (String × Nat)
  | [], k => [(k, 1)]
  | (k0, v) :: rest, k =>
    if k0 = k then (k0, v + 1) :: rest else (k0, v) :: bump rest k

/-- The `if key not in map: map[key] = value` idiom of the summarizer. -/
def setIfAbsent (m : List (String × String)) (k v : String) :
    List (String × String) :=
  match lookupKey m k with
  | some _ => m
  | none => m ++ [(k, v)]

/-- The mutable counters of `_generate_event_summary`'s single pass. -/
structure SummaryState where
  byLogType : List (String × Nat)
  byLevel : List (String × Nat)
  sourceCounts : List (String × Nat)
  eventIdCounts : List (String × Nat)
  sourceLogMap : List (String × String)
  eventIdLogMap : List (String × String)
deriving DecidableEq

/-- One iteration of the summarizer's event loop (lines 186-204): always
count the log type and the normalized level; count the provider (and record
its first log) only when it differs from "Unknown"; count the stringified
event id (and record its first log) only when the id is non-zero. -/
def summary_step (st : SummaryState) (e : RawEvent) : SummaryState :=
  let st1 := { st with
    byLogType := bump st.byLogType (logNameOf e)
    byLevel := bump st.byLevel (levelNameOf e) }
  let st2 :=
    if providerOf e ≠ "Unknown" then
      { st1 with
        sourceCounts := bump st1.sourceCounts (providerOf e)
        sourceLogMap := setIfAbsent st1.sourceLogMap (providerOf e) (logNameOf e) }
    else st1
  if eventIdOf e ≠ 0 then
    { st2 with
      eventIdCounts := bump st2.eventIdCounts (toString (eventIdOf e))
      eventIdLogMap :=
        setIfAbsent st2.eventIdLogMap (toString (eventIdOf e)) (logNameOf e) }
  else st2

/-- All counters start empty. -/
def initSummaryState : SummaryState := ⟨[], [], [], [], [], []⟩

/-- The counters after the summarizer's single pass over the batch. -/
def summaryState (events : List RawEvent) : SummaryState :=
  events.foldl summary_step initSummaryState

/-- One entry of the `TopSources` list. -/
structure TopSourceEntry where
  Source : String
  Count : Nat
  LogType : String
deriving DecidableEq

/-- One entry of the `TopEventIDs` list; the id is kept as the string the
code uses as its counter key. -/
structure TopEventIdEntry where
  EventID : String
  Count : Nat
  LogType : String
deriving DecidableEq

/-- Lines 206-211: sort the source counters descending by count (Python's
stable `sorted` with `reverse=True`), keep those with count above one, and
take the first five. -/
def topSourcesOf (st : SummaryState) : List TopSourceEntry :=
  let sorted := st.sourceCounts.insertionSort (fun a b => b.2 ≤ a.2)
  ((sorted.filter (fun p => decide (1 < p.2))).map
    (fun p => ⟨p.1, p.2, (lookupKey st.sourceLogMap p.1).getD "Unknown"⟩)).take 5

/-- Lines 213-218, the same computation for event ids. -/
def topEventIDsOf (st : SummaryState) : List TopEventIdEntry :=
  let sorted := st.eventIdCounts.insertionSort (fun a b => b.2 ≤ a.2)
  ((sorted.filter (fun p => decide (1 < p.2))).map
    (fun p => ⟨p.1, p.2, (lookupKey st.eventIdLogMap p.1).getD "Unknown"⟩)).take 5

/-- The summary dictionary returned by `_generate_event_summary`. -/
structure Summary where
  TotalEvents : Nat
  ByLogType : List (String × Nat)
  ByLevel : List (String × Nat)
  TopSources : List TopSourceEntry
  TopEventIDs : List TopEventIdEntry
deriving DecidableEq

/-- Embedding of `LogProcessor._generate_event_summary`. -/
def generate_event_summary (events : List RawEvent) : Summary :=
  let st := summaryState events
  ⟨events.length, st.byLogType, st.byLevel, topSourcesOf st, topEventIDsOf st⟩

theorem lookupKey_bump (m : List (String × Nat)) (k0 k : String) :
    lookupKey (bump m k0) k =
      if k0 = k then some ((lookupKey m k).getD 0 + 1) else lookupKey m k := by
  induction m with
  | nil =>
    by_cases hkk : k0 = k <;> simp [bump, lookupKey, hkk]
  | cons hd tl ih =>
    obtain ⟨k1, v⟩ := hd
    by_cases h1 : k1 = k0
    · subst h1
      by_cases hkk : k1 = k
      · subst hkk; simp [bump, lookupKey]
      · simp [bump, lookupKey, hkk]
    · by_cases hkk : k1 = k
      · subst hkk
        have hne : ¬ k0 = k1 := fun hc => h1 hc.symm
        simp [bump, lookupKey, h1, hne]
      · simp [bump, lookupKey, h1, hkk, ih]

/-- Merge of an initial counter value with newly counted occurrences. -/
def combineCount : Option Nat → Nat → Option Nat
  | none, 0 => none
  | none, n + 1 => some (n + 1)
  | some v, n => some (v + n)

theorem lookupKey_foldl_bump (ks : List String) (m : List (String × Nat))
    (k : String) :
    lookupKey (ks.foldl bump m) k = combineCount (lookupKey m k) (ks.count k) := by
  induction ks generalizing m with
  | nil =>
    cases h : lookupKey m k <;> simp [combineCount, h]
  | cons k0 ks ih =>
    simp only [List.foldl_cons]
    rw [ih, lookupKey_bump]
    by_cases hk : k0 = k
    · rw [if_pos hk]
      have hc : (k0 :: ks).count k = ks.count k + 1 := by
        simp [List.count_cons, hk]
      rw [hc]
      cases h : lookupKey m k with
      | none => simp [combineCount]; omega
      | some v => simp [combineCount]; omega
    · rw [if_neg hk]
      have hc : (k0 :: ks).count k = ks.count k := by
        simp [List.count_cons, hk]
      rw [hc]

theorem summary_step_byLevel (st : SummaryState) (e : RawEvent) :
    (summary_step st e).byLevel = bump st.byLevel (levelNameOf e) := by
  unfold summary_step
  split <;> split <;> rfl

theorem summary_step_byLogType (st : SummaryState) (e : RawEvent) :
    (summary_step st e).byLogType = bump st.byLogType (logNameOf e) := by
  unfold summary_step
  split <;> split <;> rfl

theorem summary_step_sourceCounts (st : SummaryState) (e : RawEvent) :
    (summary_step st e).sourceCounts =
      if providerOf e ≠ "Unknown" then bump st.sourceCounts (providerOf e)
      else st.sourceCounts := by
  unfold summary_step
  split <;> split <;> simp_all

theorem summary_step_sourceLogMap (st : SummaryState) (e : RawEvent) :
    (summary_step st e).sourceLogMap =
      if providerOf e ≠ "Unknown" then
        setIfAbsent st.sourceLogMap (providerOf e) (logNameOf e)
      else st.sourceLogMap := by
  unfold summary_step
  split <;> split <;> simp_all

theorem summary_step_eventIdCounts (st : SummaryState) (e : RawEvent) :
    (summary_step st e).eventIdCounts =
      if eventIdOf e ≠ 0 then bump st.eventIdCounts (toString (eventIdOf e))
      else st.eventIdCounts := by
  unfold summary_step
  split <;> split <;> simp_all

theorem summaryState_byLevel (events : List RawEvent) (st : SummaryState) :
    (events.foldl summary_step st).byLevel =
      (events.map levelNameOf).foldl bump st.byLevel := by
  induction events generalizing st with
  | nil => rfl
  | cons e tl ih =>
    simp only [List.foldl_cons, List.map_cons]
    rw [ih, summary_step_byLevel]

theorem summaryState_byLogType (events : List RawEvent) (st : SummaryState) :
    (events.foldl summary_step st).byLogType =
      (events.map logNameOf).foldl bump st.byLogType := by
  induction events generalizing st with
  | nil => rfl
  | cons e tl ih =>
    simp only [List.foldl_cons, List.map_cons]
    rw [ih, summary_step_byLogType]

theorem summaryState_sourceCounts (events : List RawEvent) (st : SummaryState) :
    (events.foldl summary_step st).sourceCounts =
      ((events.filter (fun e => decide (providerOf e ≠ "Unknown"))).map
        providerOf).foldl bump st.sourceCounts := by
  induction events generalizing st with
  | nil => rfl
  | cons e tl ih =>
    simp only [List.foldl_cons, List.filter_cons]
    by_cases hp : providerOf e ≠ "Unknown"
    · rw [ih]
      simp [hp, summary_step_sourceCounts]
    · rw [ih]
      simp [hp, summary_step_sourceCounts]

theorem summaryState_eventIdCounts (events : List RawEvent) (st : SummaryState) :
    (events.foldl summary_step st).eventIdCounts =
      ((events.filter (fun e => decide (eventIdOf e ≠ 0))).map
        (fun e => toString (eventIdOf e))).foldl bump st.eventIdCounts := by
  induction events generalizing st with
  | nil => rfl
  | cons e tl ih =>
    simp only [List.foldl_cons, List.filter_cons]
    by_cases hp : eventIdOf e ≠ 0
    · rw [ih]
      simp [hp, summary_step_eventIdCounts]
    · rw [ih]
      simp [hp, summary_step_eventIdCounts]

/-- Number of events of a batch whose normalized level is `lvl`. -/
def countLevel (events : List RawEvent) (lvl : String) : Nat :=
  (events.filter (fun e => decide (levelNameOf e = lvl))).length

theorem count_map_eq_length_filter {α : Type} (f : α → String) (l : List α)
    (y : String) :
    (l.map f).count y = (l.filter (fun x => decide (f x = y))).length := by
  induction l with
  | nil => rfl
  | cons x tl ih =>
    by_cases h : f x = y
    · simp [List.count_cons, List.filter_cons, h, ih]
    · simp [List.count_cons, List.filter_cons, h, ih]

/-- C5 counterexample: for the empty batch the per-level mapping is empty —
in particular the canonical key "Critical" is absent rather than present
with a zero count, so the five keys are not always present. -/
theorem c5_missing_keys_counterexample :
    (generate_event_summary []).ByLevel = [] ∧
      lookupKey (generate_event_summary []).ByLevel "Critical" = none := by
  constructor <;> decide

/-- C5 amended: the per-severity mapping of the summary contains exactly the
severities that occur in the batch: looking up a level yields its event
count when that count is positive and no entry at all (rather than an
explicit zero) when no event of the batch normalizes to it. -/
theorem c5_bylevel_amended (events : List RawEvent) (lvl : String) :
    lookupKey (generate_event_summary events).ByLevel lvl =
      if countLevel events lvl = 0 then none
      else some (countLevel events lvl) := by
  have hproj : (generate_event_summary events).ByLevel =
      (events.map levelNameOf).foldl bump [] := by
    unfold generate_event_summary summaryState
    exact summaryState_byLevel events initSummaryState
  rw [hproj, lookupKey_foldl_bump]
  have hcnt : (events.map levelNameOf).count lvl = countLevel events lvl :=
    count_map_eq_length_filter levelNameOf events lvl
  rw [show lookupKey ([] : List (String × Nat)) lvl = none from rfl, hcnt]
  cases h : countLevel events lvl with
  | zero => rfl
  | succ n => rfl

/-- Keys of these association lists are pairwise distinct, as in a Python
dictionary. -/
def uniqKeys {α : Type} (m : List (String × α)) : Prop :=
  m.Pairwise (fun p q => p.1 ≠ q.1)

theorem keys_bump (m : List (String × Nat)) (k x : String)
    (hx : x ∈ (bump m k).map Prod.fst) : x = k ∨ x ∈ m.map Prod.fst := by
  induction m with
  | nil =>
    simp [bump] at hx
    exact Or.inl hx
  | cons hd tl ih =>
    obtain ⟨k1, v⟩ := hd
    by_cases h1 : k1 = k
    · subst h1
      simp only [bump, eq_self_iff_true, if_true, List.map_cons,
        List.mem_cons] at hx ⊢
      exact Or.inr hx
    · simp only [bump, if_neg h1, List.map_cons, List.mem_cons] at hx ⊢
      rcases hx with hx | hx
      · exact Or.inr (Or.inl hx)
      · rcases ih hx with hx | hx
        · exact Or.inl hx
        · exact Or.inr (Or.inr hx)

theorem bump_uniqKeys (m : List (String × Nat)) (k : String)
    (h : uniqKeys m) : uniqKeys (bump m k) := by
  induction m with
  | nil => simp [bump, uniqKeys]
  | cons hd tl ih =>
    obtain ⟨k1, v⟩ := hd
    rw [uniqKeys, List.pairwise_cons] at h
    obtain ⟨hhead, htl⟩ := h
    by_cases h1 : k1 = k
    · subst h1
      rw [uniqKeys]
      simp only [bump, eq_self_iff_true, if_true, List.pairwise_cons]
      exact ⟨hhead, htl⟩
    · rw [uniqKeys]
      simp only [bump, if_neg h1, List.pairwise_cons]
      constructor
      · intro q hq
        rcases keys_bump tl k q.1 (List.mem_map_of_mem Prod.fst hq) with hk | hk
        · rw [hk]; exact h1
        · obtain ⟨q0, hq0, hq0e⟩ := List.mem_map.mp hk
          have := hhead q0 hq0
          rw [hq0e] at this
          exact this
      · exact ih htl

theorem lookup_of_mem_uniqKeys {α : Type} (m : List (String × α))
    (h : uniqKeys m) (p : String × α) (hp : p ∈ m) :
    lookupKey m p.1 = some p.2 := by
  induction m with
  | nil => simp at hp
  | cons q rest ih =>
    rw [uniqKeys, List.pairwise_cons] at h
    obtain ⟨hhead, htl⟩ := h
    rcases List.mem_cons.mp hp with hpq | hpr
    · subst hpq
      simp [lookupKey]
    · have hne : q.1 ≠ p.1 := hhead p hpr
      obtain ⟨q1, q2⟩ := q
      simp only [lookupKey, if_neg hne]
      exact ih htl hpr

theorem uniqKeys_foldl_bump (ks : List String) (m : List (String × Nat))
    (h : uniqKeys m) : uniqKeys (ks.foldl bump m) := by
  induction ks generalizing m with
  | nil => exact h
  | cons k0 ks ih =>
    simp only [List.foldl_cons]
    exact ih (bump m k0) (bump_uniqKeys m k0 h)

theorem mem_foldl_bump_keys (ks : List String) (m : List (String × Nat))
    (p : String × Nat) (hp : p ∈ ks.foldl bump m) :
    p.1 ∈ ks ∨ p.1 ∈ m.map Prod.fst := by
  induction ks generalizing m with
  | nil =>
    exact Or.inr (List.mem_map_of_mem Prod.fst hp)
  | cons k0 ks ih =>
    simp only [List.foldl_cons] at hp
    rcases ih (bump m k0) hp with hk | hk
    · exact Or.inl (List.mem_cons_of_mem k0 hk)
    · rcases keys_bump m k0 p.1 hk with hk | hk
      · exact Or.inl (by rw [hk]; exact List.mem_cons_self k0 ks)
      · exact Or.inr hk

/-- Number of events counted for source `s` by the summarizer: occurrences
whose provider is not "Unknown" and equals `s`. -/
def countSourceKey (events : List RawEvent) (s : String) : Nat :=
  (events.filter (fun e =>
    decide (providerOf e ≠ "Unknown" ∧ providerOf e = s))).length

/-- Number of events counted for event-id key `k` by the summarizer:
occurrences with a non-zero id whose stringified id equals `k`. -/
def countEventIdKey (events : List RawEvent) (k : String) : Nat :=
  (events.filter (fun e =>
    decide (eventIdOf e ≠ 0 ∧ toString (eventIdOf e) = k))).length

theorem sourceCounts_entry (events : List RawEvent) (p : String × Nat)
    (hp : p ∈ (summaryState events).sourceCounts) :
    p.2 = countSourceKey events p.1 ∧ 0 < p.2 ∧ p.1 ≠ "Unknown" := by
  have hproj : (summaryState events).sourceCounts =
      ((events.filter (fun e => decide (providerOf e ≠ "Unknown"))).map
        providerOf).foldl bump [] :=
    summaryState_sourceCounts events initSummaryState
  rw [hproj] at hp
  have huniq : uniqKeys (((events.filter
      (fun e => decide (providerOf e ≠ "Unknown"))).map providerOf).foldl bump []) :=
    uniqKeys_foldl_bump _ [] (List.Pairwise.nil)
  have hlook := lookup_of_mem_uniqKeys _ huniq p hp
  rw [lookupKey_foldl_bump] at hlook
  have hcnt : ((events.filter (fun e => decide (providerOf e ≠ "Unknown"))).map
      providerOf).count p.1 = countSourceKey events p.1 := by
    rw [count_map_eq_length_filter, countSourceKey, List.filter_filter]
    congr 1
    apply List.filter_congr
    intro e _
    by_cases h1 : providerOf e ≠ "Unknown" <;>
      by_cases h2 : providerOf e = p.1 <;> simp [h1, h2]
  rw [show lookupKey ([] : List (String × Nat)) p.1 = none from rfl, hcnt] at hlook
  have hcount : p.2 = countSourceKey events p.1 ∧ 0 < p.2 := by
    cases h : countSourceKey events p.1 with
    | zero => rw [h] at hlook; simp [combineCount] at hlook
    | succ n =>
      rw [h] at hlook
      simp only [combineCount, Option.some.injEq] at hlook
      omega
  refine ⟨hcount.1, hcount.2, ?_⟩
  rcases mem_foldl_bump_keys _ [] p hp with hk | hk
  · obtain ⟨e, he, hee⟩ := List.mem_map.mp hk
    have := List.mem_filter.mp he
    rw [← hee]
    simpa using this.2
  · simp at hk

theorem eventIdCounts_entry (events : List RawEvent) (p : String × Nat)
    (hp : p ∈ (summaryState events).eventIdCounts) :
    p.2 = countEventIdKey events p.1 ∧ 0 < p.2 := by
  have hproj : (summaryState events).eventIdCounts =
      ((events.filter (fun e => decide (eventIdOf e ≠ 0))).map
        (fun e => toString (eventIdOf e))).foldl bump [] :=
    summaryState_eventIdCounts events initSummaryState
  rw [hproj] at hp
  have huniq : uniqKeys (((events.filter
      (fun e => decide (eventIdOf e ≠ 0))).map
        (fun e => toString (eventIdOf e))).foldl bump []) :=
    uniqKeys_foldl_bump _ [] (List.Pairwise.nil)
  have hlook := lookup_of_mem_uniqKeys _ huniq p hp
  rw [lookupKey_foldl_bump] at hlook
  have hcnt : ((events.filter (fun e => decide (eventIdOf e ≠ 0))).map
      (fun e => toString (eventIdOf e))).count p.1 =
        countEventIdKey events p.1 := by
    rw [count_map_eq_length_filter, countEventIdKey, List.filter_filter]
    congr 1
    apply List.filter_congr
    intro e _
    by_cases h1 : eventIdOf e ≠ 0 <;>
      by_cases h2 : toString (eventIdOf e) = p.1 <;> simp [h1, h2]
  rw [show lookupKey ([] : List (String × Nat)) p.1 = none from rfl, hcnt] at hlook
  cases h : countEventIdKey events p.1 with
  | zero => rw [h] at hlook; simp [combineCount] at hlook
  | succ n =>
    rw [h] at hlook
    simp only [combineCount, Option.some.injEq] at hlook
    omega

theorem sorted_desc_counts (m : List (String × Nat)) :
    (m.insertionSort (fun a b => b.2 ≤ a.2)).Pairwise
      (fun a b : String × Nat => b.2 ≤ a.2) := by
  haveI : IsTotal (String × Nat) (fun a b : String × Nat => b.2 ≤ a.2) :=
    ⟨fun x y => show y.2 ≤ x.2 ∨ x.2 ≤ y.2 from (Nat.le_total y.2 x.2)⟩
  haveI : IsTrans (String × Nat) (fun a b : String × Nat => b.2 ≤ a.2) :=
    ⟨fun x y z hxy hyz => show z.2 ≤ x.2 from Nat.le_trans hyz hxy⟩
  exact List.sorted_insertionSort _ m

/-- C6: both top lists of the summary have at most five entries, are sorted
descending by count, and every listed entry has a count above one that is
exactly the number of batch events counted for its key (providers other
than "Unknown", and non-zero event ids, respectively). -/
theorem c6_top_lists_bounded_sorted (events : List RawEvent) :
    (generate_event_summary events).TopSources.length ≤ 5 ∧
    (generate_event_summary events).TopEventIDs.length ≤ 5 ∧
    (generate_event_summary events).TopSources.Pairwise
      (fun a b => b.Count ≤ a.Count) ∧
    (generate_event_summary events).TopEventIDs.Pairwise
      (fun a b => b.Count ≤ a.Count) ∧
    (∀ entry ∈ (generate_event_summary events).TopSources,
      1 < entry.Count ∧ entry.Source ≠ "Unknown" ∧
        entry.Count = countSourceKey events entry.Source) ∧
    (∀ entry ∈ (generate_event_summary events).TopEventIDs,
      1 < entry.Count ∧ entry.Count = countEventIdKey events entry.EventID) := by
  have hsrc : (generate_event_summary events).TopSources =
      topSourcesOf (summaryState events) := rfl
  have hid : (generate_event_summary events).TopEventIDs =
      topEventIDsOf (summaryState events) := rfl
  refine ⟨?_, ?_, ?_, ?_, ?_, ?_⟩
  · rw [hsrc]; exact List.length_take_le 5 _
  · rw [hid]; exact List.length_take_le 5 _
  · rw [hsrc]
    unfold topSourcesOf
    refine List.Pairwise.sublist (List.take_sublist 5 _) ?_
    refine List.pairwise_map.mpr ?_
    exact (sorted_desc_counts _).filter _
  · rw [hid]
    unfold topEventIDsOf
    refine List.Pairwise.sublist (List.take_sublist 5 _) ?_
    refine List.pairwise_map.mpr ?_
    exact (sorted_desc_counts _).filter _
  · rw [hsrc]
    intro entry hentry
    unfold topSourcesOf at hentry
    have hmem := List.mem_of_mem_take hentry
    obtain ⟨p, hpf, hpe⟩ := List.mem_map.mp hmem
    have hpfilter := List.mem_filter.mp hpf
    have hsortmem : p ∈ (summaryState events).sourceCounts :=
      (List.perm_insertionSort _ _).mem_iff.mp hpfilter.1
    have hchar := sourceCounts_entry events p hsortmem
    have hgt : 1 < p.2 := by simpa using hpfilter.2
    rw [← hpe]
    exact ⟨hgt, hchar.2.2, hchar.1⟩
  · rw [hid]
    intro entry hentry
    unfold topEventIDsOf at hentry
    have hmem := List.mem_of_mem_take hentry
    obtain ⟨p, hpf, hpe⟩ := List.mem_map.mp hmem
    have hpfilter := List.mem_filter.mp hpf
    have hsortmem : p ∈ (summaryState events).eventIdCounts :=
      (List.perm_insertionSort _ _).mem_iff.mp hpfilter.1
    have hchar := eventIdCounts_entry events p hsortmem
    have hgt : 1 < p.2 := by simpa using hpfilter.2
    rw [← hpe]
    exact ⟨hgt, hchar.1⟩

/-- Witness for C6: on the concrete batch the length bound holds and the
single listed source entry has count 2 over the batch. -/
theorem c6_top_lists_bounded_sorted_witness :
    (generate_event_summary [evErr1, evErr2, evWarn]).TopSources.length ≤ 5 ∧
    (1 < (TopSourceEntry.mk "SrcA" 2 "System").Count ∧
      (TopSourceEntry.mk "SrcA" 2 "System").Source ≠ "Unknown" ∧
      (TopSourceEntry.mk "SrcA" 2 "System").Count =
        countSourceKey [evErr1, evErr2, evWarn]
          (TopSourceEntry.mk "SrcA" 2 "System").Source) :=
  ⟨(c6_top_lists_bounded_sorted [evErr1, evErr2, evWarn]).1,
    (c6_top_lists_bounded_sorted [evErr1, evErr2, evWarn]).2.2.2.2.1
      (TopSourceEntry.mk "SrcA" 2 "System") (by decide)⟩

/-- An event whose ProviderName key is absent, so `get` yields "Unknown". -/
def evNoProv : RawEvent :=
  ⟨some "Application", none, some 42, some "Error", none, some "x"⟩

/-- C10: appending an event whose provider resolves to "Unknown" (missing
key or the literal string) leaves the source counters, and hence the
whole TopSources list, unchanged — no matter how often this is repeated —
while the event still increments TotalEvents and the per-log-type and
per-severity counters. -/
theorem c10_unknown_provider_excluded (events : List RawEvent) (e : RawEvent)
    (h : providerOf e = "Unknown") :
    (generate_event_summary (events ++ [e])).TopSources =
      (generate_event_summary events).TopSources ∧
    (generate_event_summary (events ++ [e])).TotalEvents =
      (generate_event_summary events).TotalEvents + 1 ∧
    lookupKey (generate_event_summary (events ++ [e])).ByLevel (levelNameOf e) =
      some ((lookupKey (generate_event_summary events).ByLevel
        (levelNameOf e)).getD 0 + 1) ∧
    lookupKey (generate_event_summary (events ++ [e])).ByLogType (logNameOf e) =
      some ((lookupKey (generate_event_summary events).ByLogType
        (logNameOf e)).getD 0 + 1) := by
  have hstate : summaryState (events ++ [e]) =
      summary_step (summaryState events) e := by
    simp [summaryState, List.foldl_append]
  have hnp : ¬ providerOf e ≠ "Unknown" := fun hc => hc h
  have hsc : (summary_step (summaryState events) e).sourceCounts =
      (summaryState events).sourceCounts := by
    rw [summary_step_sourceCounts, if_neg hnp]
  have hsl : (summary_step (summaryState events) e).sourceLogMap =
      (summaryState events).sourceLogMap := by
    rw [summary_step_sourceLogMap, if_neg hnp]
  refine ⟨?_, ?_, ?_, ?_⟩
  · show topSourcesOf (summaryState (events ++ [e])) =
      topSourcesOf (summaryState events)
    unfold topSourcesOf
    rw [hstate, hsc, hsl]
  · show (events ++ [e]).length = events.length + 1
    simp
  · show lookupKey (summaryState (events ++ [e])).byLevel (levelNameOf e) =
      some ((lookupKey (summaryState events).byLevel (levelNameOf e)).getD 0 + 1)
    rw [hstate, summary_step_byLevel, lookupKey_bump, if_pos rfl]
  · show lookupKey (summaryState (events ++ [e])).byLogType (logNameOf e) =
      some ((lookupKey (summaryState events).byLogType (logNameOf e)).getD 0 + 1)
    rw [hstate, summary_step_byLogType, lookupKey_bump, if_pos rfl]

/-- Witness for C10 at a concrete batch and a provider-less event. -/
theorem c10_unknown_provider_excluded_witness :
    (generate_event_summary ([evErr1] ++ [evNoProv])).TopSources =
      (generate_event_summary [evErr1]).TopSources ∧
    (generate_event_summary ([evErr1] ++ [evNoProv])).TotalEvents =
      (generate_event_summary [evErr1]).TotalEvents + 1 ∧
    lookupKey (generate_event_summary ([evErr1] ++ [evNoProv])).ByLevel
        (levelNameOf evNoProv) =
      some ((lookupKey (generate_event_summary [evErr1]).ByLevel
        (levelNameOf evNoProv)).getD 0 + 1) ∧
    lookupKey (generate_event_summary ([evErr1] ++ [evNoProv])).ByLogType
        (logNameOf evNoProv) =
      some ((lookupKey (generate_event_summary [evErr1]).ByLogType
        (logNameOf evNoProv)).getD 0 + 1) :=
  c10_unknown_provider_excluded [evErr1] evNoProv (by decide)

/-- Python's `"sep".join(parts)`. -/
def joinSep (sep : String) : List String → String
  | [] => ""
  | x :: xs => xs.foldl (fun acc s2 => acc ++ sep ++ s2) x

/-- Splitting into whitespace-separated words, Python's `str.split()` with
no argument (empty pieces dropped); accumulator holds the current word
reversed. -/
def wordsAux : List Char → List Char → List (List Char)
  | [], acc => if acc = [] then [] else [acc.reverse]
  | c :: cs, acc =>
    if c.isWhitespace then
      if acc = [] then wordsAux cs [] else acc.reverse :: wordsAux cs []
    else wordsAux cs (c :: acc)

/-- Python's `str.split()` as a list of words. -/
def pyWords (s : String) : List String :=
  (wordsAux s.data []).map String.mk

/-- The first mis-decoding artifact removed by `_clean_text`. -/
def mojibake1 : String := String.mk ['â', '€', 'Ž']

/-- The second mis-decoding artifact removed by `_clean_text`. -/
def mojibake2 : String := String.mk ['â', '€']

/-- The euro-sign artifact removed by `_clean_text`. -/
def mojibake3 : String := String.mk ['€']

/-- The Z-with-caron artifact removed by `_clean_text`. -/
def mojibake4 : String := String.mk ['Ž']

/-- Embedding of `LogProcessor._clean_text` (lines 350-372): empty input is
returned unchanged; otherwise the four byte artifacts are stripped in order
and whitespace runs are collapsed to single spaces via
`' '.join(text.split())`. -/
def clean_text (text : String) : String :=
  if text = "" then text
  else
    let t1 := pyReplace text mojibake1 ""
    let t2 := pyReplace t1 mojibake2 ""
    let t3 := pyReplace t2 mojibake3 ""
    let t4 := pyReplace t3 mojibake4 ""
    joinSep " " (pyWords t4)

/-- Python truthiness of an optional string: `None` and `""` are falsy. -/
def pyTruthyStr : Option String → Bool
  | none => false
  | some s => decide (s ≠ "")

/-- Embedding of `LogProcessor._format_event` (lines 374-416): the lines
appended for one aggregated event.  Keys are always present in the
aggregated dictionaries, so the `get` defaults "?" / "Unknown" are dead;
a `None` value prints as Python renders it in an f-string. -/
def formatEventLines (ev : AggEvent) : List String :=
  let event_id := match ev.EventID with
    | some i => toString i
    | none => "None"
  let source := match ev.ProviderName with
    | some s => s
    | none => "None"
  let message0 := clean_text ev.Message
  let first_ts := match ev.FirstTimestamp with
    | some s => if s = "" then none else some (clean_text s)
    | none => none
  let last_ts := match ev.LastTimestamp with
    | some s => if s = "" then none else some (clean_text s)
    | none => none
  let message := pyStrip (pyReplace (pyReplace message0 "\n" " ") "\r" "")
  let header := "[" ++ ev.Level ++ "] EventID: " ++ event_id ++ " | Source: " ++
    source ++ " | Count: " ++ toString ev.OccurrenceCount
  [header, "  Msg: " ++ message] ++
    (if 1 < ev.OccurrenceCount ∧ pyTruthyStr first_ts = true ∧
        pyTruthyStr last_ts = true then
      ["  First: " ++ first_ts.getD "" ++ " | Last: " ++ last_ts.getD ""]
    else if pyTruthyStr last_ts = true then
      ["  Time: " ++ last_ts.getD ""]
    else []) ++
    [""]

/-- The `CollectionInfo` sub-dictionary built by `process_logs`. -/
structure CollectionInfoData where
  CollectionTime : Option String
  TimeRange : Option (List (String × String))
deriving DecidableEq

/-- One network adapter dictionary; `DNSServers` conflates a missing key, a
null and an empty list, which the code treats identically (falsy). -/
structure AdapterInfo where
  Name : Option String
  Description : Option String
  Status : Option String
  MACAddress : Option String
  IPv4Address : Option String
  Gateway : Option String
  DNSServers : List String
deriving DecidableEq

/-- The processed-data dictionary consumed by `format_for_llm`, in the shape
`process_logs` produces.  Containers whose Python truthiness check conflates
a missing key, a null and emptiness are modelled by the empty value. -/
structure ProcessedData where
  CollectionInfo : CollectionInfoData
  SystemInfo : List (String × String)
  NetworkAdapters : List AdapterInfo
  EventSummary : Option Summary
  AggregatedEvents : List AggEvent
deriving DecidableEq

/-- Lookup with default in the free-form `SystemInfo` mapping. -/
def sysGet (si : List (String × String)) (k d : String) : String :=
  (lookupKey si k).getD d

/-- Lines 271-281: the system-information block; skipped entirely (header
included) when the `SystemInfo` dictionary is empty, since Python's
`if sys_info:` is false then. -/
def sysInfoLines (pd : ProcessedData) : List String :=
  if pd.SystemInfo.isEmpty then [] else
    ["## SYSTEM INFORMATION ##",
     "- OS: " ++ sysGet pd.SystemInfo "OSVersion" "N/A" ++ " " ++
       sysGet pd.SystemInfo "OSDisplayVersion" "" ++ " (Build " ++
       sysGet pd.SystemInfo "OSBuildNumber" "N/A" ++ ")",
     "- Computer: " ++ sysGet pd.SystemInfo "ComputerName" "N/A" ++ " (" ++
       sysGet pd.SystemInfo "CsManufacturer" "N/A" ++ " " ++
       sysGet pd.SystemInfo "CsModel" "N/A" ++ ")",
     "- Memory: " ++ sysGet pd.SystemInfo "TotalPhysicalMemory" "N/A",
     "- Install Date: " ++ sysGet pd.SystemInfo "InstallDate" "N/A",
     "- Last Boot: " ++ sysGet pd.SystemInfo "LastBootTime" "N/A",
     "- Uptime Hours: " ++ sysGet pd.SystemInfo "UptimeHours" "N/A",
     ""]

/-- Lines 287-292: the lines for one adapter. -/
def adapterLines (a : AdapterInfo) : List String :=
  ["- Name: " ++ a.Name.getD "N/A" ++ " (" ++ a.Description.getD "N/A" ++ ")",
   "  Status: " ++ a.Status.getD "N/A" ++ ", MAC: " ++ a.MACAddress.getD "N/A",
   "  IPv4: " ++ a.IPv4Address.getD "N/A" ++ ", Gateway: " ++
     a.Gateway.getD "N/A"] ++
  (if a.DNSServers.isEmpty then []
   else ["  DNS: " ++ joinSep ", " a.DNSServers])

/-- Lines 284-295: the network block; rendered only when the adapter list
is non-empty, limited to the first two adapters. -/
def netLines (pd : ProcessedData) : List String :=
  if pd.NetworkAdapters.isEmpty then [] else
    "## ACTIVE NETWORK ADAPTERS ##" ::
      ((pd.NetworkAdapters.take 2).flatMap adapterLines ++
       (if 2 < pd.NetworkAdapters.length then
         ["  (Additional adapters omitted for brevity)"] else []) ++
       [""])

/-- Lines 298-304: the collection block; the `CollectionInfo` dictionary of
pipeline output always carries its two keys and is truthy, so the guard
`if coll_info and coll_info.get("TimeRange")` reduces to the truthiness of
the `TimeRange` value. -/
def collLines (pd : ProcessedData) : List String :=
  match pd.CollectionInfo.TimeRange with
  | none => []
  | some tr =>
    if tr.isEmpty then [] else
      ["## COLLECTION INFO ##",
       "- Logs Collected At: " ++ pd.CollectionInfo.CollectionTime.getD "N/A",
       "- Covering Period: " ++ (lookupKey tr "StartTime").getD "N/A" ++
         " to " ++ (lookupKey tr "EndTime").getD "N/A",
       ""]

/-- Lines 307-326: the event-summary block. -/
def summaryLines (pd : ProcessedData) : List String :=
  match pd.EventSummary with
  | none => []
  | some s =>
    ["## EVENT SUMMARY ##",
     "- Total Events Found: " ++ toString s.TotalEvents,
     "- Counts by Level: " ++
       (match (s.ByLevel.filter (fun p => decide (0 < p.2))).map
           (fun p => p.1 ++ ": " ++ toString p.2) with
        | [] => "None"
        | entries => joinSep ", " entries)] ++
    (match s.TopSources with
     | [] => []
     | _ => "- Top Sources:" :: s.TopSources.map (fun it =>
         "  - " ++ it.Source ++ " (" ++ it.LogType ++ "): " ++
           toString it.Count ++ " times")) ++
    (match s.TopEventIDs with
     | [] => []
     | _ => "- Top Event IDs:" :: s.TopEventIDs.map (fun it =>
         "  - ID " ++ it.EventID ++ " (" ++ it.LogType ++ "): " ++
           toString it.Count ++ " times")) ++
    [""]

/-- Lines 329-345: the aggregated-events block; `events_to_format` is the
whole list (the code applies no filter), so the inner empty check and the
omission count line are dead branches, kept here as the code has them. -/
def aggLines (pd : ProcessedData) : List String :=
  if pd.AggregatedEvents.isEmpty then [] else
    "## AGGREGATED EVENT DETAILS (Sorted by Frequency) ##" ::
      (let events_to_format := pd.AggregatedEvents
       (if events_to_format.isEmpty then
          ["No significant events found matching current filters."]
        else events_to_format.flatMap formatEventLines) ++
       (if events_to_format.length < pd.AggregatedEvents.length then
          ["... (" ++ toString (pd.AggregatedEvents.length -
            events_to_format.length) ++
            " additional aggregated event groups omitted)"]
        else []))

/-- The lines `format_for_llm` accumulates, section by section. -/
def output_lines (pd : ProcessedData) : List String :=
  sysInfoLines pd ++ netLines pd ++ collLines pd ++ summaryLines pd ++
    aggLines pd

/-- Embedding of `LogProcessor.format_for_llm`: `"\n".join(output_lines)`. -/
def format_for_llm (pd : ProcessedData) : String :=
  joinSep "\n" (output_lines pd)

/-- Processed data whose `SystemInfo` is supplied but empty: the batch is
empty and no network, time-range or aggregate data is present. -/
def pdC9 : ProcessedData :=
  ⟨⟨none, none⟩, [], [], some (generate_event_summary []), []⟩

/-- C9 counterexample: `pdC9` carries a (non-nil, empty) `SystemInfo`
object, yet the rendered output contains no "## SYSTEM INFORMATION ##"
header line: `if sys_info:` is false for an empty dictionary, so the whole
section — header included — is omitted rather than rendered with
placeholders. -/
theorem c9_empty_section_counterexample :
    ¬ ("## SYSTEM INFORMATION ##" ∈ output_lines pdC9) := by
  decide

/-- C9 amended: a section's header is emitted exactly when its input object
is non-empty under Python truthiness (for the collection block: its
`TimeRange` value is a non-empty mapping; for the summary: the summary
object is present): a non-empty input renders the section starting with its
header, with "N/A" placeholders for any missing field inside it, while an
empty or missing input object omits the entire section including its
header.  Formatting itself is total, so an empty batch raises no failure
and still renders the event-summary section. -/
theorem c9_section_headers_amended (pd : ProcessedData) :
    (pd.SystemInfo ≠ [] →
      (sysInfoLines pd).head? = some "## SYSTEM INFORMATION ##") ∧
    (pd.SystemInfo = [] → sysInfoLines pd = []) ∧
    (pd.NetworkAdapters ≠ [] →
      (netLines pd).head? = some "## ACTIVE NETWORK ADAPTERS ##") ∧
    (pd.NetworkAdapters = [] → netLines pd = []) ∧
    (∀ tr, pd.CollectionInfo.TimeRange = some tr → tr ≠ [] →
      (collLines pd).head? = some "## COLLECTION INFO ##") ∧
    ((pd.CollectionInfo.TimeRange = none ∨
        pd.CollectionInfo.TimeRange = some []) → collLines pd = []) ∧
    (∀ s, pd.EventSummary = some s →
      (summaryLines pd).head? = some "## EVENT SUMMARY ##") ∧
    (pd.EventSummary = none → summaryLines pd = []) ∧
    (pd.AggregatedEvents ≠ [] → (aggLines pd).head? =
      some "## AGGREGATED EVENT DETAILS (Sorted by Frequency) ##") ∧
    (pd.AggregatedEvents = [] → aggLines pd = []) ∧
    output_lines pd = sysInfoLines pd ++ netLines pd ++ collLines pd ++
      summaryLines pd ++ aggLines pd := by
  refine ⟨?_, ?_, ?_, ?_, ?_, ?_, ?_, ?_, ?_, ?_, rfl⟩
  · intro h
    simp [sysInfoLines, List.isEmpty_iff, h]
  · intro h
    simp [sysInfoLines, List.isEmpty_iff, h]
  · intro h
    simp [netLines, List.isEmpty_iff, h]
  · intro h
    simp [netLines, List.isEmpty_iff, h]
  · intro tr htr hne
    simp [collLines, htr, List.isEmpty_iff, hne]
  · intro h
    rcases h with h | h <;> simp [collLines, h]
  · intro s hs
    simp [summaryLines, hs]
  · intro h
    simp [summaryLines, h]
  · intro h
    simp [aggLines, List.isEmpty_iff, h]
  · intro h
    simp [aggLines, List.isEmpty_iff, h]

/-- Witness for C9 at a processed-data value with a one-key SystemInfo. -/
theorem c9_section_headers_amended_witness :
    (sysInfoLines ⟨⟨none, none⟩, [("ComputerName", "PC1")], [], none, []⟩).head? =
      some "## SYSTEM INFORMATION ##" :=
  (c9_section_headers_amended
    ⟨⟨none, none⟩, [("ComputerName", "PC1")], [], none, []⟩).1 (by decide)

/-- Python's slice `s[:n]`. -/
def pyTake (n : Nat) (s : String) : String := String.mk (s.data.take n)

/-- Processed output of an empty batch: the rendering is non-empty (the
event-summary section) and no truncation machinery exists in the code. -/
def pdC1 : ProcessedData :=
  ⟨⟨none, none⟩, [], [], some (generate_event_summary []), []⟩

/-- C1 counterexample: at the concrete processed data `pdC1` and the budget
10, the formatter's output is longer than the budget and is not the
rendering cut at the boundary with a "...[truncated]" marker appended —
`format_for_llm` takes no budget, never truncates its output and the string
"...[truncated]" appears nowhere in the code base. -/
theorem c1_truncation_counterexample :
    ¬ ((format_for_llm pdC1).data.length ≤ 10 ∨
      format_for_llm pdC1 = pyTake 10 (format_for_llm pdC1) ++
        "...[truncated]") := by
  decide

/-- The separator `"\n---\n"` between event strings in
`LLMManager.format_log_prompt`. -/
def promptSeparator : String := "\n---\n"

/-- The marker `format_log_prompt` appends when events were dropped. -/
def omittedMarker : String := "[... some events omitted due to context limits ...]"

/-- The placeholder used when no event fits the budget. -/
def noEventsPlaceholder : String :=
  "(No notable events selected or fit within context limit)"

/-- The inclusion loop of `format_log_prompt` (llm_manager.py lines
349-361): whole event strings are appended (each followed by the separator)
while the running character total stays within `max_event_chars`; the first
event that does not fit stops the loop and raises the omission flag. -/
def includeEventsAux (maxC : Int) : List String → Int → String → String × Bool
  | [], _, acc => (acc, false)
  | s :: rest, cur, acc =>
    let evLen : Int := (s.data.length : Int) + (promptSeparator.data.length : Int)
    if cur + evLen ≤ maxC then
      includeEventsAux maxC rest (cur + evLen) (acc ++ s ++ promptSeparator)
    else (acc, true)

/-- Python's `str.endswith`. -/
def pyEndsWith (s suf : String) : Bool :=
  decide (s.data.drop (s.data.length - suf.data.length) = suf.data)

/-- Python's slice `s[:-n]`. -/
def pyDropRight (s : String) (n : Nat) : String :=
  String.mk (s.data.take (s.data.length - n))

/-- Line 364-365 of llm_manager.py: remove one trailing separator. -/
def stripSep (txt0 : String) : String :=
  if pyEndsWith txt0 promptSeparator = true then
    pyDropRight txt0 promptSeparator.data.length
  else txt0

/-- Lines 363-370 of llm_manager.py: strip one trailing separator, fall
back to the placeholder when nothing was included, and append the omission
marker when events were dropped. -/
def stripAndFinish (r : String × Bool) : String :=
  if stripSep r.1 = "" then noEventsPlaceholder
  else if r.2 then stripSep r.1 ++ promptSeparator ++ omittedMarker
  else stripSep r.1

/-- The event-text assembly of `format_log_prompt`: the budgeted loop
followed by the finishing fixups. -/
def assembleIncludedEvents (strs : List String) (maxC : Int) : String :=
  stripAndFinish (includeEventsAux maxC strs 0 "")

theorem pyEndsWith_append (x m : String) : pyEndsWith (x ++ m) m = true := by
  apply decide_eq_true
  show (x ++ m).data.drop ((x ++ m).data.length - m.data.length) = m.data
  have hd : (x ++ m).data = x.data ++ m.data := rfl
  rw [hd, List.length_append]
  have hlen : x.data.length + m.data.length - m.data.length = x.data.length := by
    omega
  rw [hlen, List.drop_left]

/-- All events concatenated, each followed by the separator: the exact
string the loop accumulates when everything fits. -/
def catSep : List String → String
  | [] => ""
  | s :: rest => s ++ promptSeparator ++ catSep rest

theorem includeEventsAux_all (strs : List String) (maxC : Int) :
    ∀ (cur : Int) (acc : String),
      (includeEventsAux maxC strs cur acc).2 = false →
      (includeEventsAux maxC strs cur acc).1 = acc ++ catSep strs := by
  induction strs with
  | nil =>
    intro cur acc _
    simp [includeEventsAux, catSep]
  | cons s rest ih =>
    intro cur acc hf
    simp only [includeEventsAux] at hf ⊢
    by_cases hfit : cur + ((s.data.length : Int) +
        (promptSeparator.data.length : Int)) ≤ maxC
    · rw [if_pos hfit] at hf ⊢
      rw [ih _ _ hf, catSep]
      rw [String.append_assoc, String.append_assoc,
        ← String.append_assoc s promptSeparator (catSep rest)]
    · rw [if_neg hfit] at hf
      simp at hf

theorem joinSep_foldl_prepend (sep : String) (xs : List String) :
    ∀ (a b : String),
      xs.foldl (fun acc s2 => acc ++ sep ++ s2) (a ++ b) =
        a ++ xs.foldl (fun acc s2 => acc ++ sep ++ s2) b := by
  induction xs with
  | nil => intro a b; rfl
  | cons c cs ih =>
    intro a b
    simp only [List.foldl_cons]
    have h1 : a ++ b ++ sep ++ c = a ++ (b ++ sep ++ c) := by
      rw [String.append_assoc (a ++ b) sep c, String.append_assoc a b (sep ++ c),
        ← String.append_assoc b sep c]
    rw [h1, ih a (b ++ sep ++ c)]

theorem catSep_data (strs : List String) (hne : strs ≠ []) :
    (catSep strs).data =
      (joinSep promptSeparator strs).data ++ promptSeparator.data := by
  induction strs with
  | nil => exact absurd rfl hne
  | cons s rest ih =>
    cases rest with
    | nil =>
      show (s ++ promptSeparator ++ "").data = s.data ++ promptSeparator.data
      simp
    | cons r tl =>
      have hjoin : joinSep promptSeparator (s :: r :: tl) =
          s ++ promptSeparator ++ joinSep promptSeparator (r :: tl) := by
        show (r :: tl).foldl (fun acc s2 => acc ++ promptSeparator ++ s2) s =
          s ++ promptSeparator ++ (tl.foldl
            (fun acc s2 => acc ++ promptSeparator ++ s2) r)
        simp only [List.foldl_cons]
        rw [joinSep_foldl_prepend promptSeparator tl (s ++ promptSeparator) r]
      rw [hjoin]
      show (s ++ promptSeparator ++ catSep (r :: tl)).data =
        (s ++ promptSeparator ++ joinSep promptSeparator (r :: tl)).data ++
          promptSeparator.data
      have h1 : (s ++ promptSeparator ++ catSep (r :: tl)).data =
          (s ++ promptSeparator).data ++ (catSep (r :: tl)).data := rfl
      have h2 : (s ++ promptSeparator ++ joinSep promptSeparator (r :: tl)).data =
          (s ++ promptSeparator).data ++ (joinSep promptSeparator (r :: tl)).data :=
        rfl
      rw [h1, h2, ih (by simp), List.append_assoc]

theorem stripAndFinish_omitted (txt0 : String) :
    pyEndsWith (stripAndFinish (txt0, true)) omittedMarker = true ∨
      stripAndFinish (txt0, true) = noEventsPlaceholder := by
  show pyEndsWith (if stripSep txt0 = "" then noEventsPlaceholder
      else if true = true then stripSep txt0 ++ promptSeparator ++ omittedMarker
      else stripSep txt0) omittedMarker = true ∨
    (if stripSep txt0 = "" then noEventsPlaceholder
      else if true = true then stripSep txt0 ++ promptSeparator ++ omittedMarker
      else stripSep txt0) = noEventsPlaceholder
  by_cases h : stripSep txt0 = ""
  · right
    rw [if_pos h]
  · left
    rw [if_neg h, if_pos rfl]
    exact pyEndsWith_append (stripSep txt0 ++ promptSeparator) omittedMarker

/-- C1 amended: the formatter applies no character budget and produces no
truncation marker (see the counterexample); the character budgeting lives
in the caller `format_log_prompt`, which drops whole event strings at
event-string granularity — never cutting at a character boundary — and,
whenever any event was dropped, either ends its assembled text with the
marker "[... some events omitted due to context limits ...]" or replaces
it by the explicit placeholder; when nothing was dropped, the assembled
text is exactly all event strings joined by the separator (or the
placeholder when that join is empty). -/
theorem c1_budget_amended (strs : List String) (maxC : Int) :
    ((includeEventsAux maxC strs 0 "").2 = true →
      pyEndsWith (assembleIncludedEvents strs maxC) omittedMarker = true ∨
        assembleIncludedEvents strs maxC = noEventsPlaceholder) ∧
    ((includeEventsAux maxC strs 0 "").2 = false →
      assembleIncludedEvents strs maxC = joinSep promptSeparator strs ∨
        assembleIncludedEvents strs maxC = noEventsPlaceholder) := by
  constructor
  · intro hom
    have hpair : includeEventsAux maxC strs 0 "" =
        ((includeEventsAux maxC strs 0 "").1, true) := by
      rw [← hom]
    unfold assembleIncludedEvents
    rw [hpair]
    exact stripAndFinish_omitted _
  · intro hnone
    have hpair : includeEventsAux maxC strs 0 "" = (catSep strs, false) := by
      have h1 := includeEventsAux_all strs maxC 0 "" hnone
      rw [show ("" ++ catSep strs) = catSep strs from rfl] at h1
      exact Prod.ext h1 hnone
    unfold assembleIncludedEvents
    rw [hpair]
    cases strs with
    | nil =>
      right
      decide
    | cons s rest =>
      have hcat := catSep_data (s :: rest) (by simp)
      have hendsw : pyEndsWith (catSep (s :: rest)) promptSeparator = true := by
        apply decide_eq_true
        show (catSep (s :: rest)).data.drop ((catSep (s :: rest)).data.length -
          promptSeparator.data.length) = promptSeparator.data
        rw [hcat, List.length_append]
        have hl : (joinSep promptSeparator (s :: rest)).data.length +
            promptSeparator.data.length - promptSeparator.data.length =
            (joinSep promptSeparator (s :: rest)).data.length := by omega
        rw [hl, List.drop_left]
      have hstrip : stripSep (catSep (s :: rest)) =
          joinSep promptSeparator (s :: rest) := by
        unfold stripSep
        rw [if_pos hendsw]
        unfold pyDropRight
        rw [hcat, List.length_append]
        have hl : (joinSep promptSeparator (s :: rest)).data.length +
            promptSeparator.data.length - promptSeparator.data.length =
            (joinSep promptSeparator (s :: rest)).data.length := by omega
        rw [hl, List.take_left]
      show ((if stripSep (catSep (s :: rest)) = "" then noEventsPlaceholder
          else if false = true then stripSep (catSep (s :: rest)) ++
            promptSeparator ++ omittedMarker
          else stripSep (catSep (s :: rest))) =
            joinSep promptSeparator (s :: rest)) ∨
        ((if stripSep (catSep (s :: rest)) = "" then noEventsPlaceholder
          else if false = true then stripSep (catSep (s :: rest)) ++
            promptSeparator ++ omittedMarker
          else stripSep (catSep (s :: rest))) = noEventsPlaceholder)
      rw [hstrip]
      by_cases hjz : joinSep promptSeparator (s :: rest) = ""
      · right
        rw [if_pos hjz]
      · left
        rw [if_neg hjz, if_neg (by simp)]

/-- Witness for C1 at a concrete event list and budget: the second event
does not fit in 13 characters, so the assembly ends with the omission
marker (or would be the placeholder). -/
theorem c1_budget_amended_witness :
    pyEndsWith (assembleIncludedEvents ["aaaaaaaa", "bb"] 13) omittedMarker =
      true ∨
    assembleIncludedEvents ["aaaaaaaa", "bb"] 13 = noEventsPlaceholder :=
  (c1_budget_amended ["aaaaaaaa", "bb"] 13).1 (by decide)
